import Mathlib

/-!
Verification development for the Content Discovery & Indexing Engine of
`src/migrated_functionality/src/content-discovery-integration.js`
(class `ContentDiscoveryBot`).

The JavaScript engine is shallowly embedded:
* each JS `Map` becomes an association list `List (String × α)` with the
  `Map` semantics (`set` replaces in place keeping insertion order,
  otherwise appends; iteration order is list order);
* JS strings become `String`; `toLowerCase` is modelled on the ASCII
  fragment (all concrete inputs in this file are ASCII);
* JS numbers become `Int` (timestamps, millisecond arithmetic: exact in
  IEEE doubles for the ranges involved), `Nat` (counters, lengths) and
  `Rat` (heuristic scores such as `confidence` and `qualityScore`, which
  are only stored, never compared, by the operations modelled here);
* JS exceptions (the `RegExp` constructor throwing `SyntaxError` inside
  `calculateRelevance`, which `searchContent` does not catch) become
  `Except String`;
* the asynchronous observers, timers and DOM access are outside the
  engine core and are not modelled; the engine operations take the
  current time `Date.now()` as an explicit `now : Int` argument.
-/

namespace ContentDiscovery

/-! ## Modelling JS string primitives -/

/-- ASCII fragment of JS `String.prototype.toLowerCase` on one character. -/
def jsCharToLower (c : Char) : Char :=
  if 'A' ≤ c ∧ c ≤ 'Z' then Char.ofNat (c.toNat + 32) else c

/-- JS `String.prototype.toLowerCase` (ASCII fragment). -/
def jsToLower (s : String) : String :=
  ⟨s.data.map jsCharToLower⟩

/-- Does `needle` occur as a contiguous sublist of `hay`?  Structural
recursion on `hay`; model for JS `String.prototype.includes`. -/
def hasSubstr (hay needle : List Char) : Bool :=
  match hay with
  | [] => needle.isEmpty
  | _ :: t => needle.isPrefixOf hay || hasSubstr t needle

/-- JS `s.includes(sub)`. -/
def jsIncludes (s sub : String) : Bool :=
  hasSubstr s.data sub.data

/-- The empty string is a substring of every string, as in JS
`s.includes('')`. -/
theorem jsIncludes_empty (s : String) : jsIncludes s "" = true := by
  show hasSubstr s.data [] = true
  cases s.data with
  | nil => rfl
  | cons c t => simp [hasSubstr, List.isPrefixOf]

/-- Model of JS `\s` on the ASCII fragment used by this development. -/
def jsIsWs (c : Char) : Bool :=
  c == ' ' || c == '\t' || c == '\n' || c == '\r'

/-- Worker for `jsSplitWs`.  `skipping = true` means the previous
character was part of a whitespace run that has already emitted its
token boundary. -/
def splitWsAux : Bool → List Char → List Char → List (List Char)
  | _, [], acc => [acc.reverse]
  | skipping, c :: r, acc =>
    if jsIsWs c then
      if skipping then splitWsAux true r acc
      else acc.reverse :: splitWsAux true r []
    else splitWsAux false r (c :: acc)

/-- JS `s.split(/\s+/)`: tokens between maximal whitespace runs, with an
empty token before a leading run and after a trailing run, and `[""]`
for the empty string. -/
def jsSplitWs (s : String) : List String :=
  (splitWsAux false s.data []).map fun l => ⟨l⟩

/-- Fuel-indexed counter of leftmost non-overlapping occurrences of
`w` in `t`; the empty pattern matches at every position (JS global
regex semantics, where `lastIndex` is bumped past each match). -/
def countOccurFuel : Nat → List Char → List Char → Nat
  | 0, _, _ => 0
  | fuel + 1, w, t =>
    match t with
    | [] => if w.isEmpty then 1 else 0
    | _ :: t' =>
      if w.isEmpty then t.length + 1
      else if w.isPrefixOf t then 1 + countOccurFuel fuel w (t.drop w.length)
      else countOccurFuel fuel w t'

/-- Number of matches of the literal pattern `w` in `t` under a global,
case-insensitive JS regex (`new RegExp(w, 'gi')` followed by
`t.match(...)`), modelled for patterns free of regex metacharacters:
leftmost non-overlapping occurrences after lowercasing both sides. -/
def jsMatchCount (w t : String) : Nat :=
  let wl := (jsToLower w).data
  let tl := (jsToLower t).data
  countOccurFuel (tl.length + 1) wl tl

/-- Group-balance check on an ECMAScript pattern: a `(` must be closed
and a `)` must have been opened.  `new RegExp(w, 'gi')` throws a
`SyntaxError` ("Unterminated group" / "Unmatched ')'") exactly when this
fails, for patterns free of escapes and character classes — the fragment
exercised by this development. -/
def regexGroupsBalanced : List Char → Nat → Bool
  | [], 0 => true
  | [], _ + 1 => false
  | c :: r, d =>
    if c = '(' then regexGroupsBalanced r (d + 1)
    else if c = ')' then
      match d with
      | 0 => false
      | d' + 1 => regexGroupsBalanced r d'
    else regexGroupsBalanced r d

/-- Does `new RegExp(w, 'gi')` compile (modelled fragment)? -/
def regexSyntaxOk (w : String) : Bool :=
  regexGroupsBalanced w.data 0

/-- ECMAScript regex metacharacters; a pattern avoiding all of them is
matched literally. -/
def regexMeta (c : Char) : Bool :=
  c ∈ ['\\', '^', '$', '.', '|', '?', '*', '+', '(', ')', '[', ']', '\x7b', '\x7d']

/-- A pattern that is matched literally by a JS regex. -/
def isRegexLiteral (w : String) : Bool :=
  w.data.all fun c => !regexMeta c

/-- A list of characters without regex metacharacters is group-balanced. -/
theorem regexGroupsBalanced_of_noMeta (l : List Char)
    (h : ∀ c ∈ l, regexMeta c = false) : regexGroupsBalanced l 0 = true := by
  induction l with
  | nil => rfl
  | cons c r ih =>
    have hc : regexMeta c = false := h c (List.mem_cons_self c r)
    have hc1 : ¬ (c = '(') := by
      intro hcc; subst hcc; simp [regexMeta] at hc
    have hc2 : ¬ (c = ')') := by
      intro hcc; subst hcc; simp [regexMeta] at hc
    simpa [regexGroupsBalanced, hc1, hc2] using
      ih fun x hx => h x (List.mem_cons_of_mem _ hx)

/-- A metacharacter-free pattern compiles. -/
theorem regexSyntaxOk_of_isRegexLiteral (w : String)
    (h : isRegexLiteral w = true) : regexSyntaxOk w = true := by
  refine regexGroupsBalanced_of_noMeta w.data fun c hc => ?_
  have h' : ∀ c ∈ w.data, (!regexMeta c) = true := by
    simpa [isRegexLiteral, List.all_eq_true] using h
  simpa using h' c hc

/-! ## Modelling JS `Map` as an association list -/

/-- JS `m.get(k)` (`none` models `undefined`). -/
def jsMapGet {α : Type} (k : String) (m : List (String × α)) : Option α :=
  (m.find? fun e => e.1 == k).map (·.2)

/-- JS `m.set(k, v)`: replace in place if the key exists (keeping its
position in iteration order), else append. -/
def jsMapSet {α : Type} (k : String) (v : α) (m : List (String × α)) :
    List (String × α) :=
  if m.any (fun e => e.1 == k) then
    m.map fun e => if e.1 == k then (k, v) else e
  else m ++ [(k, v)]

/-- The keys of a JS map, in iteration order. -/
def jsMapKeys {α : Type} (m : List (String × α)) : List String :=
  m.map Prod.fst

theorem jsMapGet_map_replace {α : Type} (k k' : String) (v : α)
    (m : List (String × α)) (h : k' ≠ k) :
    jsMapGet k' (m.map fun e => if e.1 == k then (k, v) else e) =
      jsMapGet k' m := by
  induction m with
  | nil => rfl
  | cons e es ih =>
    rw [List.map_cons]
    by_cases he : e.1 = k
    · rw [if_pos (by simp only [beq_iff_eq]; exact he)]
      unfold jsMapGet
      rw [List.find?_cons_of_neg _ (by simp only [beq_iff_eq]; exact Ne.symm h),
        List.find?_cons_of_neg _
          (by simp only [beq_iff_eq, he]; exact Ne.symm h)]
      exact ih
    · rw [if_neg (by simp only [beq_iff_eq]; exact he)]
      by_cases he2 : e.1 = k'
      · unfold jsMapGet
        rw [List.find?_cons_of_pos _ (by simp only [beq_iff_eq]; exact he2),
          List.find?_cons_of_pos _ (by simp only [beq_iff_eq]; exact he2)]
      · unfold jsMapGet
        rw [List.find?_cons_of_neg _ (by simp only [beq_iff_eq]; exact he2),
          List.find?_cons_of_neg _ (by simp only [beq_iff_eq]; exact he2)]
        exact ih

theorem jsMapGet_append_single_ne {α : Type} (k k' : String) (v : α)
    (m : List (String × α)) (h : k' ≠ k) :
    jsMapGet k' (m ++ [(k, v)]) = jsMapGet k' m := by
  induction m with
  | nil =>
    unfold jsMapGet
    rw [List.nil_append,
      List.find?_cons_of_neg _ (by simp only [beq_iff_eq]; exact Ne.symm h)]
  | cons e es ih =>
    rw [List.cons_append]
    by_cases he2 : e.1 = k'
    · unfold jsMapGet
      rw [List.find?_cons_of_pos _ (by simp only [beq_iff_eq]; exact he2),
        List.find?_cons_of_pos _ (by simp only [beq_iff_eq]; exact he2)]
    · unfold jsMapGet
      rw [List.find?_cons_of_neg _ (by simp only [beq_iff_eq]; exact he2),
        List.find?_cons_of_neg _ (by simp only [beq_iff_eq]; exact he2)]
      exact ih

theorem jsMapGet_map_replace_self {α : Type} (k : String) (v : α)
    (m : List (String × α)) (h : m.any (fun e => e.1 == k) = true) :
    jsMapGet k (m.map fun e => if e.1 == k then (k, v) else e) = some v := by
  induction m with
  | nil => simp at h
  | cons e es ih =>
    rw [List.map_cons]
    by_cases he : e.1 = k
    · rw [if_pos (by simp only [beq_iff_eq]; exact he)]
      unfold jsMapGet
      rw [List.find?_cons_of_pos _ (by simp only [beq_iff_eq])]
      rfl
    · rw [if_neg (by simp only [beq_iff_eq]; exact he)]
      have he' : (e.1 == k) = false := by simp only [beq_eq_false_iff_ne, ne_eq]; exact he
      simp only [List.any_cons, he', Bool.false_or] at h
      unfold jsMapGet
      rw [List.find?_cons_of_neg _ (by simp only [beq_iff_eq]; exact he)]
      exact ih h

theorem jsMapGet_set_self {α : Type} (k : String) (v : α)
    (m : List (String × α)) : jsMapGet k (jsMapSet k v m) = some v := by
  unfold jsMapSet
  by_cases h : m.any (fun e => e.1 == k) = true
  · rw [if_pos h]
    exact jsMapGet_map_replace_self k v m h
  · rw [if_neg h]
    induction m with
    | nil =>
      unfold jsMapGet
      rw [List.nil_append, List.find?_cons_of_pos _ (by simp only [beq_iff_eq])]
      rfl
    | cons e es ih =>
      simp only [List.any_cons, Bool.or_eq_true, not_or] at h
      have he : ¬ (e.1 = k) := by simpa using h.1
      rw [List.cons_append]
      unfold jsMapGet
      rw [List.find?_cons_of_neg _ (by simp only [beq_iff_eq]; exact he)]
      exact ih (by simpa using h.2)

theorem jsMapGet_set_ne {α : Type} (k k' : String) (v : α)
    (m : List (String × α)) (h : k' ≠ k) :
    jsMapGet k' (jsMapSet k v m) = jsMapGet k' m := by
  unfold jsMapSet
  by_cases hm : m.any (fun e => e.1 == k) = true
  · rw [if_pos hm]
    exact jsMapGet_map_replace k k' v m h
  · rw [if_neg hm]
    exact jsMapGet_append_single_ne k k' v m h

/-- Looking a key up after filtering on a key predicate. -/
theorem jsMapGet_filter_key {α : Type} (p : String → Bool) (k : String)
    (m : List (String × α)) :
    jsMapGet k (m.filter fun e => p e.1) =
      if p k then jsMapGet k m else none := by
  induction m with
  | nil => simp [jsMapGet]
  | cons e es ih =>
    by_cases he : e.1 = k
    · subst he
      by_cases hp : p e.1
      · simp [jsMapGet, List.filter_cons, hp, List.find?]
      · simpa [jsMapGet, List.filter_cons, hp, List.find?] using ih
    · have he' : (e.1 == k) = false := by simp [he]
      by_cases hp : p e.1
      · simpa [jsMapGet, List.filter_cons, hp, List.find?, he'] using ih
      · simpa [jsMapGet, List.filter_cons, hp, List.find?, he'] using ih

/-! ## Data model

Mirrors the record shapes built and stored by `ContentDiscoveryBot`.
Raw captured events (`extractContentFromElement`, `processAJAXResponse`,
`processStorageContent`) produce a `ContentData` whose `classification`
is still `none` (JS `undefined`) and whose `searchableText` is empty;
`indexContent` fills both in before committing the record. -/

/-- A heterogeneous JS metadata value: the enrichment step stores both
numbers and strings in the metadata bag. -/
inductive MetaVal where
  | num (value : Rat)
  | str (value : String)
deriving DecidableEq

/-- `classification` object attached by `classifyContent`. -/
structure Classification where
  category : String
  priority : String
  tags : List String
  confidence : Rat
deriving DecidableEq

/-- A directed relationship edge `{type, target}`. -/
structure Relationship where
  type : String
  target : String
deriving DecidableEq

/-- One content record (`contentData` in the source). -/
structure ContentData where
  id : String
  type : String
  title : String
  description : String
  text : String
  metadata : List (String × MetaVal)
  relationships : List Relationship
  timestamp : Int
  source : String
  classification : Option Classification := none
  searchableText : String := ""
deriving DecidableEq

/-- Denormalized search projection entry built by `optimizeForSearch`. -/
structure SearchEntry where
  id : String
  title : String
  description : String
  text : String
  category : String
  priority : String
  tags : List String
  searchableText : String
  timestamp : Int
deriving DecidableEq

/-- `this.indexingStatus`. -/
structure IndexingStatus where
  totalContent : Nat
  indexedContent : Nat
  pendingContent : Nat
  failedContent : Nat
  lastIndexed : Option Int
deriving DecidableEq

/-- The four engine-owned stores plus the status counters: the mutable
state of a `ContentDiscoveryBot` instance. -/
structure ContentDiscoveryBot where
  contentIndex : List (String × ContentData)
  metadataStore : List (String × List (String × MetaVal))
  relationshipGraph : List (String × List Relationship)
  contentCache : List (String × SearchEntry)
  indexingStatus : IndexingStatus
deriving DecidableEq

/-- The state right after the constructor ran (all stores empty, all
counters zero, `lastIndexed: null`). -/
def emptyBot : ContentDiscoveryBot :=
  { contentIndex := []
    metadataStore := []
    relationshipGraph := []
    contentCache := []
    indexingStatus :=
      { totalContent := 0
        indexedContent := 0
        pendingContent := 0
        failedContent := 0
        lastIndexed := none } }

/-! ## Engine operations -/

/-- `isDuplicate(contentData)`: scan the primary index for an existing
record with the same `(text, source)` pair. -/
def isDuplicate (bot : ContentDiscoveryBot) (contentData : ContentData) : Bool :=
  bot.contentIndex.any fun e =>
    e.2.text == contentData.text && e.2.source == contentData.source

/-- `classifyContent(contentData)`: an ordered chain of independent
`if`s over the lowercased `text + ' ' + title`, each overwriting
category/priority/confidence when its condition matches, followed by
substring tag extraction from a fixed vocabulary. -/
def classifyContent (contentData : ContentData) : Classification :=
  let text := jsToLower (contentData.text ++ " " ++ contentData.title)
  let cl : Classification :=
    { category := "unknown", priority := "low", tags := [], confidence := 0.5 }
  let cl :=
    if jsIncludes text "dashboard" || contentData.type == "dashboard" then
      { cl with category := "dashboard", priority := "high", confidence := 0.9 }
    else cl
  let cl :=
    if jsIncludes text "service" || contentData.type == "service" then
      { cl with category := "service", priority := "high", confidence := 0.8 }
    else cl
  let cl :=
    if jsIncludes text "metric" || jsIncludes text "performance"
        || contentData.type == "metric" then
      { cl with category := "metric", priority := "medium", confidence := 0.8 }
    else cl
  let cl :=
    if jsIncludes text "user" || jsIncludes text "profile"
        || contentData.type == "user" then
      { cl with category := "user", priority := "medium", confidence := 0.7 }
    else cl
  let cl :=
    if jsIncludes text "system" || jsIncludes text "config"
        || contentData.type == "system" then
      { cl with category := "system", priority := "high", confidence := 0.8 }
    else cl
  let commonTags :=
    ["dashboard", "service", "metric", "user", "system", "error", "status",
      "health", "performance"]
  { cl with tags := commonTags.filter fun tag => jsIncludes text tag }

/-- `detectLanguage(text)`: fraction of a fixed 8-word English list found
as substrings of the lowercased text; the `wordCount` local of the source
is computed but unused. -/
def detectLanguage (text : String) : String :=
  let englishWords := ["the", "and", "is", "are", "for", "with", "this", "that"]
  let _wordCount := (jsSplitWs text).length
  let englishWordCount :=
    (englishWords.filter fun word => jsIncludes (jsToLower text) word).length
  if ((englishWordCount : Rat) / (englishWords.length : Rat) > 0.3) then "english"
  else "unknown"

/-- `calculateQualityScore(contentData)`: base 0.5, +0.2 for a title
longer than 5, +0.2 for a description longer than 10, +0.1 for text
longer than 20, capped at 1.0.  The JS truthiness guard on the empty
string agrees with the length test. -/
def calculateQualityScore (contentData : ContentData) : Rat :=
  let score : Rat := 0.5
  let score := if contentData.title.length > 5 then score + 0.2 else score
  let score := if contentData.description.length > 10 then score + 0.2 else score
  let score := if contentData.text.length > 20 then score + 0.1 else score
  min score 1.0

/-- `calculateUpdateFrequency(contentId)`: look the id up in the primary
index and bucket the age of the *stored* record; `'unknown'` when the id
is absent.  The JS float comparisons `age/3.6e6 < 1` and `< 24` are
exact integer comparisons for millisecond ages in the modelled range. -/
def calculateUpdateFrequency (bot : ContentDiscoveryBot) (now : Int)
    (contentId : String) : String :=
  match jsMapGet contentId bot.contentIndex with
  | none => "unknown"
  | some content =>
    let age := now - content.timestamp
    if age < 3600000 then "high"
    else if age < 86400000 then "medium"
    else "low"

/-- `enrichMetadata(contentData)`: the derived metadata bag.  Runs
against the state *before* the record is committed (`indexContent` calls
it ahead of `contentIndex.set`). -/
def enrichMetadata (bot : ContentDiscoveryBot) (now : Int)
    (contentData : ContentData) : List (String × MetaVal) :=
  [("contentLength", MetaVal.num contentData.text.length),
    ("wordCount", MetaVal.num (jsSplitWs contentData.text).length),
    ("language", MetaVal.str (detectLanguage contentData.text)),
    ("qualityScore", MetaVal.num (calculateQualityScore contentData)),
    ("updateFrequency",
      MetaVal.str (calculateUpdateFrequency bot now contentData.id))]

/-- JS object spread `{...a, ...b}`: keys of `a` in order with values
overridden by `b` where present, then the keys of `b` not in `a`. -/
def jsMerge {α : Type} (a b : List (String × α)) : List (String × α) :=
  (a.map fun e => ((jsMapGet e.1 b).map fun v => (e.1, v)).getD e)
    ++ b.filter fun e => !(a.any fun e' => e'.1 == e.1)

/-- `updateRelationshipGraph(contentData)`: append every captured
relationship to the adjacency list keyed by the record id (creating an
empty list first when absent). -/
def updateRelationshipGraph (contentData : ContentData)
    (graph : List (String × List Relationship)) :
    List (String × List Relationship) :=
  contentData.relationships.foldl
    (fun g rel => jsMapSet contentData.id ((jsMapGet contentData.id g).getD [] ++ [rel]) g)
    graph

/-- `optimizeForSearch(contentData)` with the classification already
attached: build `searchableText` (title, description, text and tags
joined by single spaces, lowercased), store it on the record, and build
the `SearchEntry` for the projection. -/
def optimizeForSearch (contentData : ContentData) (cl : Classification) :
    ContentData × SearchEntry :=
  let searchableText :=
    jsToLower (String.intercalate " "
      ([contentData.title, contentData.description, contentData.text] ++ cl.tags))
  ({ contentData with searchableText := searchableText },
    { id := contentData.id
      title := contentData.title
      description := contentData.description
      text := contentData.text
      category := cl.category
      priority := cl.priority
      tags := cl.tags
      searchableText := searchableText
      timestamp := contentData.timestamp })

/-- `updateIndexingStatus(status)`: bump the per-outcome counter, then
recompute `totalContent` from the live primary-index size. -/
def updateIndexingStatus (bot : ContentDiscoveryBot) (status : String)
    (now : Int) : ContentDiscoveryBot :=
  let st := bot.indexingStatus
  let st :=
    if status == "indexed" then
      { st with indexedContent := st.indexedContent + 1, lastIndexed := some now }
    else if status == "failed" then
      { st with failedContent := st.failedContent + 1 }
    else if status == "pending" then
      { st with pendingContent := st.pendingContent + 1 }
    else st
  { bot with indexingStatus := { st with totalContent := bot.contentIndex.length } }

/-- The record as it stands right before the stores are written: the
classification attached by `classifyContent`, the enrichment merged into
the metadata bag (`{...contentData.metadata, ...enrichedMetadata}`). -/
def enrichedRecord (bot : ContentDiscoveryBot) (now : Int)
    (contentData : ContentData) : ContentData :=
  let cl := classifyContent contentData
  let withCl := { contentData with classification := some cl }
  { withCl with metadata := jsMerge withCl.metadata (enrichMetadata bot now withCl) }

/-- The record actually committed by `indexContent`: the JS object stored
in `contentIndex` is later mutated by `optimizeForSearch` to carry
`searchableText`, so the committed record carries it. -/
def committedRecord (bot : ContentDiscoveryBot) (now : Int)
    (contentData : ContentData) : ContentData :=
  (optimizeForSearch (enrichedRecord bot now contentData)
    (classifyContent contentData)).1

/-- The `SearchEntry` projected by `indexContent` for the same record. -/
def committedEntry (bot : ContentDiscoveryBot) (now : Int)
    (contentData : ContentData) : SearchEntry :=
  (optimizeForSearch (enrichedRecord bot now contentData)
    (classifyContent contentData)).2

/-- `indexContent(contentData)`: dedup check, classify, enrich, commit to
the primary index and metadata store, update the relationship graph and
status, then project into the search cache.  The `catch`/`failed` path
of the source is unreachable in this pure model (no modelled step
throws). -/
def indexContent (bot : ContentDiscoveryBot) (now : Int)
    (contentData : ContentData) : ContentDiscoveryBot :=
  if isDuplicate bot contentData then bot
  else
    let record := committedRecord bot now contentData
    let entry := committedEntry bot now contentData
    let bot1 := { bot with contentIndex := jsMapSet record.id record bot.contentIndex }
    let bot2 := { bot1 with metadataStore := jsMapSet record.id record.metadata bot1.metadataStore }
    let bot3 := { bot2 with relationshipGraph := updateRelationshipGraph record bot2.relationshipGraph }
    let bot4 := updateIndexingStatus bot3 "indexed" now
    { bot4 with contentCache := jsMapSet entry.id entry bot4.contentCache }

/-- Retention window of `cleanupOldContent`: 24 hours in milliseconds. -/
def maxAge : Int := 24 * 60 * 60 * 1000

/-- The ids the `cleanupOldContent` loop deletes: every primary-index
entry older than the retention window. -/
def expiredIds (bot : ContentDiscoveryBot) (now : Int) : List String :=
  (bot.contentIndex.filter fun e => now - e.2.timestamp > maxAge).map Prod.fst

/-- `cleanupOldContent()`: delete every record older than `maxAge` from
the primary index, the metadata store and the search cache.  The
relationship graph and the indexing status are not touched. -/
def cleanupOldContent (bot : ContentDiscoveryBot) (now : Int) :
    ContentDiscoveryBot :=
  { bot with
    contentIndex := bot.contentIndex.filter fun e => !(now - e.2.timestamp > maxAge : Bool)
    metadataStore := bot.metadataStore.filter fun e => !((expiredIds bot now).contains e.1)
    contentCache := bot.contentCache.filter fun e => !((expiredIds bot now).contains e.1) }

/-- Result object of `getRelationshipStats()`.  The average is a JS
float; a division by zero produces `NaN` (or `Infinity`), modelled as
`none`. -/
structure RelationshipStats where
  totalRelationships : Nat
  relationshipTypes : List (String × Nat)
  averageRelationshipsPerContent : Option Rat
deriving DecidableEq

/-- `getRelationshipStats()`: total edge count, per-type counts, and
`totalRelationships / this.contentIndex.size` with no guard on a zero
divisor. -/
def getRelationshipStats (bot : ContentDiscoveryBot) : RelationshipStats :=
  let totalRelationships := (bot.relationshipGraph.map fun e => e.2.length).sum
  let relationshipTypes :=
    bot.relationshipGraph.foldl
      (fun m entry =>
        entry.2.foldl
          (fun m rel => jsMapSet rel.type ((jsMapGet rel.type m).getD 0 + 1) m) m)
      []
  { totalRelationships := totalRelationships
    relationshipTypes := relationshipTypes
    averageRelationshipsPerContent :=
      if bot.contentIndex.length = 0 then none
      else some ((totalRelationships : Rat) / (bot.contentIndex.length : Rat)) }

/-! ## Search -/

/-- The optional equality filters of `searchContent`. -/
structure SearchFilters where
  category : Option String := none
  priority : Option String := none
  type : Option String := none
deriving DecidableEq

/-- The empty filter object `{}`. -/
def noFilters : SearchFilters := {}

/-- The three `continue` guards of the `searchContent` loop: a record is
eligible only if every supplied filter matches (a missing
`classification` — JS `undefined` — fails any supplied category or
priority filter). -/
def passesFilters (filters : SearchFilters) (content : ContentData) : Bool :=
  (match filters.category with
    | none => true
    | some fc =>
      match content.classification with
      | none => false
      | some cl => cl.category == fc) &&
  (match filters.priority with
    | none => true
    | some fp =>
      match content.classification with
      | none => false
      | some cl => cl.priority == fp) &&
  (match filters.type with
    | none => true
    | some ft => content.type == ft)

/-- `calculateRelevance(query, text)`: split the query on whitespace and
sum per-word global case-insensitive match counts.  Compiling a word
into a `RegExp` throws a `SyntaxError` for an invalid pattern, which the
caller does not catch: modelled as `Except.error`. -/
def calculateRelevance (query text : String) : Except String Nat :=
  let queryWords := jsSplitWs query
  if queryWords.all regexSyntaxOk then
    Except.ok (queryWords.map fun word => jsMatchCount word text).sum
  else Except.error "SyntaxError: Invalid regular expression"

/-- The filter-and-score loop of `searchContent` over the primary index
in iteration order; an uncaught `SyntaxError` aborts the whole call. -/
def searchContentLoop (queryLower : String) (filters : SearchFilters) :
    List (String × ContentData) → Except String (List (ContentData × Nat))
  | [] => Except.ok []
  | (_, content) :: rest =>
    if passesFilters filters content
        && jsIncludes content.searchableText queryLower then
      match calculateRelevance queryLower content.searchableText with
      | Except.error e => Except.error e
      | Except.ok relevance =>
        match searchContentLoop queryLower filters rest with
        | Except.error e => Except.error e
        | Except.ok results => Except.ok ((content, relevance) :: results)
    else searchContentLoop queryLower filters rest

/-- `searchContent(query, filters)`: filter, score, then
`sort((a, b) => b.relevance - a.relevance)` — a stable descending sort
on the relevance score. -/
def searchContent (bot : ContentDiscoveryBot) (query : String)
    (filters : SearchFilters) : Except String (List (ContentData × Nat)) :=
  let queryLower := jsToLower query
  match searchContentLoop queryLower filters bot.contentIndex with
  | Except.error e => Except.error e
  | Except.ok results =>
    Except.ok (results.mergeSort fun a b => decide (b.2 ≤ a.2))

/-! ## Operation sequences -/

/-- The engine mutations quantified over by the store invariants:
incremental ingestion and the eviction pass of the refresh timer. -/
inductive DiscoveryOp where
  | ingest (now : Int) (contentData : ContentData)
  | cleanup (now : Int)

/-- Apply one operation. -/
def applyOp (bot : ContentDiscoveryBot) : DiscoveryOp → ContentDiscoveryBot
  | DiscoveryOp.ingest now contentData => indexContent bot now contentData
  | DiscoveryOp.cleanup now => cleanupOldContent bot now

/-- Run a sequence of operations from the freshly constructed engine. -/
def runOps (ops : List DiscoveryOp) : ContentDiscoveryBot :=
  ops.foldl applyOp emptyBot

/-! ## Lemmas about the map model -/

theorem jsMapGet_nil {α : Type} (k : String) :
    jsMapGet k ([] : List (String × α)) = none := rfl

theorem jsMapGet_cons_of_pos {α : Type} (k : String) (e : String × α)
    (m : List (String × α)) (h : (e.1 == k) = true) :
    jsMapGet k (e :: m) = some e.2 := by
  unfold jsMapGet
  simp only [List.find?_cons, h, Option.map_some']

theorem jsMapGet_cons_of_neg {α : Type} (k : String) (e : String × α)
    (m : List (String × α)) (h : (e.1 == k) = false) :
    jsMapGet k (e :: m) = jsMapGet k m := by
  unfold jsMapGet
  simp only [List.find?_cons, h]

theorem jsMapGet_eq_none_iff {α : Type} (k : String)
    (m : List (String × α)) :
    jsMapGet k m = none ↔ ∀ e ∈ m, ¬ (e.1 = k) := by
  unfold jsMapGet
  rw [Option.map_eq_none', List.find?_eq_none]
  simp only [beq_iff_eq]

theorem jsMerge_key_fst {α : Type} (b : List (String × α)) (e : String × α) :
    (((jsMapGet e.1 b).map fun v => (e.1, v)).getD e).1 = e.1 := by
  cases jsMapGet e.1 b <;> rfl

theorem jsMapGet_mapped_hit {α : Type} (a b : List (String × α)) (k : String)
    (v : α) (h : jsMapGet k b = some v)
    (hka : (a.any fun e => e.1 == k) = true) (rest : List (String × α)) :
    jsMapGet k
      ((a.map fun e => ((jsMapGet e.1 b).map fun v => (e.1, v)).getD e) ++ rest)
      = some v := by
  induction a with
  | nil => simp at hka
  | cons e es ih =>
    rw [List.map_cons, List.cons_append]
    by_cases he : e.1 = k
    · have hgb : jsMapGet e.1 b = some v := by rw [he]; exact h
      rw [jsMapGet_cons_of_pos k _ _
        (by rw [jsMerge_key_fst b e]; simp only [beq_iff_eq]; exact he)]
      rw [hgb]
      rfl
    · have hne : ((((jsMapGet e.1 b).map fun v => (e.1, v)).getD e).1 == k) = false := by
        rw [jsMerge_key_fst b e]
        simp only [beq_eq_false_iff_ne, ne_eq]
        exact he
      have he' : (e.1 == k) = false := by
        simp only [beq_eq_false_iff_ne, ne_eq]; exact he
      simp only [List.any_cons, he', Bool.false_or] at hka
      rw [jsMapGet_cons_of_neg k _ _ hne]
      exact ih hka

theorem jsMapGet_mapped_miss {α : Type} (a b : List (String × α)) (k : String)
    (hka : (a.any fun e => e.1 == k) = false) (rest : List (String × α)) :
    jsMapGet k
      ((a.map fun e => ((jsMapGet e.1 b).map fun v => (e.1, v)).getD e) ++ rest)
      = jsMapGet k rest := by
  induction a with
  | nil => rw [List.map_nil, List.nil_append]
  | cons e es ih =>
    rw [List.any_cons, Bool.or_eq_false_iff] at hka
    have hne : ((((jsMapGet e.1 b).map fun v => (e.1, v)).getD e).1 == k) = false := by
      rw [jsMerge_key_fst b e]
      exact hka.1
    rw [List.map_cons, List.cons_append, jsMapGet_cons_of_neg k _ _ hne]
    exact ih hka.2

/-- A key present in the right operand of a JS spread keeps the right
operand's value. -/
theorem jsMapGet_jsMerge_right {α : Type} (k : String)
    (a b : List (String × α)) (v : α) (h : jsMapGet k b = some v) :
    jsMapGet k (jsMerge a b) = some v := by
  unfold jsMerge
  by_cases hka : (a.any fun e => e.1 == k) = true
  · exact jsMapGet_mapped_hit a b k v h hka _
  · have hka' : (a.any fun e => e.1 == k) = false := by
      cases hb : a.any fun e => e.1 == k
      · rfl
      · exact absurd hb hka
    rw [jsMapGet_mapped_miss a b k hka' _]
    have hfk := jsMapGet_filter_key (fun key => !(a.any fun e' => e'.1 == key)) k b
    rw [hfk, if_pos (by rw [hka']; rfl)]
    exact h

theorem jsMapGet_none_filter {α : Type} (k : String) (p : String × α → Bool)
    (m : List (String × α)) (h : jsMapGet k m = none) :
    jsMapGet k (m.filter p) = none := by
  rw [jsMapGet_eq_none_iff] at h ⊢
  exact fun e he => h e (List.mem_of_mem_filter he)

theorem jsMapGet_filter_nodup {α : Type} (k : String) (v : α)
    (p : String × α → Bool) (m : List (String × α))
    (hnd : (jsMapKeys m).Nodup) (h : jsMapGet k m = some v) :
    jsMapGet k (m.filter p) = if p (k, v) then some v else none := by
  induction m with
  | nil => rw [jsMapGet_nil] at h; exact absurd h (by simp)
  | cons e es ih =>
    obtain ⟨a, b⟩ := e
    unfold jsMapKeys at hnd
    rw [List.map_cons, List.nodup_cons] at hnd
    by_cases he : a = k
    · subst he
      have hv : b = v := by
        rw [jsMapGet_cons_of_pos a (a, b) es (by simp)] at h
        exact Option.some.inj h
      subst hv
      have hnone : jsMapGet a es = none := by
        rw [jsMapGet_eq_none_iff]
        intro x hx hxk
        have hmem : x.1 ∈ List.map Prod.fst es := List.mem_map_of_mem Prod.fst hx
        rw [hxk] at hmem
        exact hnd.1 hmem
      rw [List.filter_cons]
      by_cases hp : p (a, b) = true
      · rw [if_pos hp, jsMapGet_cons_of_pos a (a, b) _ (by simp), if_pos hp]
      · rw [if_neg hp, if_neg hp]
        exact jsMapGet_none_filter a p es hnone
    · have habk : ((a, b).1 == k) = false := by
        simp only [beq_eq_false_iff_ne, ne_eq]; exact he
      rw [jsMapGet_cons_of_neg k (a, b) es habk] at h
      rw [List.filter_cons]
      by_cases hp : p (a, b) = true
      · rw [if_pos hp, jsMapGet_cons_of_neg k (a, b) _ habk]
        exact ih hnd.2 h
      · rw [if_neg hp]
        exact ih hnd.2 h

theorem contains_filtered_keys_of_none {α : Type} (k : String)
    (p : String × α → Bool) (m : List (String × α))
    (h : jsMapGet k m = none) :
    (((m.filter p).map Prod.fst).contains k) = false := by
  rw [jsMapGet_eq_none_iff] at h
  cases hc : ((m.filter p).map Prod.fst).contains k
  · rfl
  · exfalso
    have hk : k ∈ (m.filter p).map Prod.fst := List.elem_iff.mp hc
    obtain ⟨e, he, hek⟩ := List.mem_map.mp hk
    exact h e (List.mem_of_mem_filter he) hek

theorem contains_filtered_keys_nodup {α : Type} (k : String) (v : α)
    (p : String × α → Bool) (m : List (String × α))
    (hnd : (jsMapKeys m).Nodup) (h : jsMapGet k m = some v) :
    (((m.filter p).map Prod.fst).contains k) = p (k, v) := by
  induction m with
  | nil => rw [jsMapGet_nil] at h; exact absurd h (by simp)
  | cons e es ih =>
    obtain ⟨a, b⟩ := e
    unfold jsMapKeys at hnd
    rw [List.map_cons, List.nodup_cons] at hnd
    by_cases he : a = k
    · subst he
      have hv : b = v := by
        rw [jsMapGet_cons_of_pos a (a, b) es (by simp)] at h
        exact Option.some.inj h
      subst hv
      have hnone : jsMapGet a es = none := by
        rw [jsMapGet_eq_none_iff]
        intro x hx hxk
        have hmem : x.1 ∈ List.map Prod.fst es := List.mem_map_of_mem Prod.fst hx
        rw [hxk] at hmem
        exact hnd.1 hmem
      rw [List.filter_cons]
      by_cases hp : p (a, b) = true
      · rw [if_pos hp, List.map_cons, List.contains_cons, hp]
        simp
      · rw [if_neg hp, contains_filtered_keys_of_none a p es hnone]
        cases hpb : p (a, b)
        · rfl
        · exact absurd hpb hp
    · have habk : ((a, b).1 == k) = false := by
        simp only [beq_eq_false_iff_ne, ne_eq]; exact he
      rw [jsMapGet_cons_of_neg k (a, b) es habk] at h
      rw [List.filter_cons]
      by_cases hp : p (a, b) = true
      · rw [if_pos hp, List.map_cons, List.contains_cons]
        have hka : (k == a) = false := by
          simp only [beq_eq_false_iff_ne, ne_eq]
          exact fun hh => he hh.symm
        rw [hka, Bool.false_or]
        exact ih hnd.2 h
      · rw [if_neg hp]
        exact ih hnd.2 h

theorem jsMapKeys_set {α : Type} (k : String) (v : α)
    (m : List (String × α)) (hnd : (jsMapKeys m).Nodup) :
    (jsMapKeys (jsMapSet k v m)).Nodup := by
  unfold jsMapSet
  by_cases hm : m.any (fun e => e.1 == k) = true
  · rw [if_pos hm]
    have hkeys : jsMapKeys (m.map fun e => if e.1 == k then (k, v) else e)
        = jsMapKeys m := by
      unfold jsMapKeys
      rw [List.map_map]
      apply List.map_congr_left
      intro e _
      by_cases he : e.1 = k
      · simp [he]
      · simp [he]
    rw [hkeys]
    exact hnd
  · rw [if_neg hm]
    have hknot : k ∉ jsMapKeys m := by
      intro hk
      obtain ⟨e, he, hek⟩ := List.mem_map.mp hk
      exact hm (List.any_of_mem he (by simp only [beq_iff_eq]; exact hek))
    unfold jsMapKeys
    rw [List.map_append]
    rw [List.Perm.nodup_iff (List.perm_append_comm)]
    exact List.nodup_cons.mpr ⟨hknot, hnd⟩

theorem jsMapKeys_filter {α : Type} (p : String × α → Bool)
    (m : List (String × α)) (hnd : (jsMapKeys m).Nodup) :
    (jsMapKeys (m.filter p)).Nodup := by
  unfold jsMapKeys at hnd ⊢
  exact List.Nodup.sublist (List.Sublist.map Prod.fst (List.filter_sublist m)) hnd

/-! ## Committed records: basic projections -/

theorem committedRecord_id (bot : ContentDiscoveryBot) (now : Int)
    (c : ContentData) : (committedRecord bot now c).id = c.id := rfl

theorem committedRecord_text (bot : ContentDiscoveryBot) (now : Int)
    (c : ContentData) : (committedRecord bot now c).text = c.text := rfl

theorem committedRecord_source (bot : ContentDiscoveryBot) (now : Int)
    (c : ContentData) : (committedRecord bot now c).source = c.source := rfl

theorem committedRecord_timestamp (bot : ContentDiscoveryBot) (now : Int)
    (c : ContentData) : (committedRecord bot now c).timestamp = c.timestamp := rfl

theorem committedEntry_id (bot : ContentDiscoveryBot) (now : Int)
    (c : ContentData) : (committedEntry bot now c).id = c.id := rfl

theorem committedRecord_metadata (bot : ContentDiscoveryBot) (now : Int)
    (c : ContentData) :
    (committedRecord bot now c).metadata =
      jsMerge c.metadata
        (enrichMetadata bot now { c with classification := some (classifyContent c) }) := rfl

/-! ## `indexContent` projections -/

theorem indexContent_of_dup (bot : ContentDiscoveryBot) (now : Int)
    (c : ContentData) (h : isDuplicate bot c = true) :
    indexContent bot now c = bot := by
  unfold indexContent
  rw [if_pos h]

theorem indexContent_contentIndex (bot : ContentDiscoveryBot) (now : Int)
    (c : ContentData) (h : isDuplicate bot c = false) :
    (indexContent bot now c).contentIndex =
      jsMapSet c.id (committedRecord bot now c) bot.contentIndex := by
  unfold indexContent
  rw [if_neg (by rw [h]; exact Bool.false_ne_true)]
  rfl

theorem indexContent_metadataStore (bot : ContentDiscoveryBot) (now : Int)
    (c : ContentData) (h : isDuplicate bot c = false) :
    (indexContent bot now c).metadataStore =
      jsMapSet c.id (committedRecord bot now c).metadata bot.metadataStore := by
  unfold indexContent
  rw [if_neg (by rw [h]; exact Bool.false_ne_true)]
  rfl

theorem indexContent_relationshipGraph (bot : ContentDiscoveryBot) (now : Int)
    (c : ContentData) (h : isDuplicate bot c = false) :
    (indexContent bot now c).relationshipGraph =
      updateRelationshipGraph (committedRecord bot now c) bot.relationshipGraph := by
  unfold indexContent
  rw [if_neg (by rw [h]; exact Bool.false_ne_true)]
  rfl

theorem indexContent_contentCache (bot : ContentDiscoveryBot) (now : Int)
    (c : ContentData) (h : isDuplicate bot c = false) :
    (indexContent bot now c).contentCache =
      jsMapSet c.id (committedEntry bot now c) bot.contentCache := by
  unfold indexContent
  rw [if_neg (by rw [h]; exact Bool.false_ne_true)]
  rfl

theorem indexContent_totalContent (bot : ContentDiscoveryBot) (now : Int)
    (c : ContentData) (h : isDuplicate bot c = false) :
    (indexContent bot now c).indexingStatus.totalContent =
      (jsMapSet c.id (committedRecord bot now c) bot.contentIndex).length := by
  unfold indexContent
  rw [if_neg (by rw [h]; exact Bool.false_ne_true)]
  rfl

/-! ## `cleanupOldContent` projections -/

theorem cleanupOldContent_contentIndex (bot : ContentDiscoveryBot) (now : Int) :
    (cleanupOldContent bot now).contentIndex =
      bot.contentIndex.filter fun e => !(now - e.2.timestamp > maxAge : Bool) := rfl

theorem cleanupOldContent_metadataStore (bot : ContentDiscoveryBot) (now : Int) :
    (cleanupOldContent bot now).metadataStore =
      bot.metadataStore.filter fun e => !((expiredIds bot now).contains e.1) := rfl

theorem cleanupOldContent_contentCache (bot : ContentDiscoveryBot) (now : Int) :
    (cleanupOldContent bot now).contentCache =
      bot.contentCache.filter fun e => !((expiredIds bot now).contains e.1) := rfl

/-! ## Store well-formedness: unique keys and the cache/index projection -/

/-- The search projection holds an entry for an id exactly when the
primary index holds a record for it. -/
def CacheMatchesIndex (bot : ContentDiscoveryBot) : Prop :=
  ∀ id : String,
    (jsMapGet id bot.contentCache).isSome = (jsMapGet id bot.contentIndex).isSome

/-- Reachable-store well-formedness: both keyed stores have unique keys
(as any JS `Map` does) and the projection matches the index. -/
def StoresWF (bot : ContentDiscoveryBot) : Prop :=
  (jsMapKeys bot.contentIndex).Nodup ∧ (jsMapKeys bot.contentCache).Nodup ∧
    CacheMatchesIndex bot

theorem storesWF_empty : StoresWF emptyBot :=
  ⟨List.nodup_nil, List.nodup_nil, fun _ => rfl⟩

theorem isDuplicate_false_of_not {bot : ContentDiscoveryBot}
    {c : ContentData} (h : ¬ isDuplicate bot c = true) :
    isDuplicate bot c = false := by
  cases hb : isDuplicate bot c
  · rfl
  · exact absurd hb h

theorem storesWF_indexContent (bot : ContentDiscoveryBot) (now : Int)
    (c : ContentData) (h : StoresWF bot) :
    StoresWF (indexContent bot now c) := by
  by_cases hdup : isDuplicate bot c = true
  · rw [indexContent_of_dup bot now c hdup]
    exact h
  · have hd := isDuplicate_false_of_not hdup
    refine ⟨?_, ?_, ?_⟩
    · rw [indexContent_contentIndex bot now c hd]
      exact jsMapKeys_set _ _ _ h.1
    · rw [indexContent_contentCache bot now c hd]
      exact jsMapKeys_set _ _ _ h.2.1
    · intro id
      rw [indexContent_contentIndex bot now c hd,
        indexContent_contentCache bot now c hd]
      by_cases hid : id = c.id
      · subst hid
        rw [jsMapGet_set_self, jsMapGet_set_self]
        rfl
      · rw [jsMapGet_set_ne c.id id _ _ hid, jsMapGet_set_ne c.id id _ _ hid]
        exact h.2.2 id

theorem storesWF_cleanup (bot : ContentDiscoveryBot) (now : Int)
    (h : StoresWF bot) : StoresWF (cleanupOldContent bot now) := by
  obtain ⟨hndI, hndC, hal⟩ := h
  refine ⟨?_, ?_, ?_⟩
  · rw [cleanupOldContent_contentIndex]
    exact jsMapKeys_filter _ _ hndI
  · rw [cleanupOldContent_contentCache]
    exact jsMapKeys_filter _ _ hndC
  · intro id
    rw [cleanupOldContent_contentIndex, cleanupOldContent_contentCache]
    have hcache :
        jsMapGet id (bot.contentCache.filter fun e => !((expiredIds bot now).contains e.1)) =
          if !((expiredIds bot now).contains id) then jsMapGet id bot.contentCache
          else none :=
      jsMapGet_filter_key (fun key => !((expiredIds bot now).contains key)) id
        bot.contentCache
    cases hix : jsMapGet id bot.contentIndex with
    | none =>
      have hcontains :
          ((expiredIds bot now).contains id) = false := by
        unfold expiredIds
        exact contains_filtered_keys_of_none id _ bot.contentIndex hix
      rw [hcache, hcontains]
      simp only [Bool.not_false, if_true]
      rw [jsMapGet_none_filter id _ bot.contentIndex hix]
      rw [hal id, hix]
    | some rec =>
      have hcontains :
          ((expiredIds bot now).contains id) =
            (now - rec.timestamp > maxAge : Bool) := by
        unfold expiredIds
        exact contains_filtered_keys_nodup id rec _ bot.contentIndex hndI hix
      have hidx' :
          jsMapGet id (bot.contentIndex.filter fun e => !(now - e.2.timestamp > maxAge : Bool)) =
            if !(now - rec.timestamp > maxAge : Bool) then some rec else none :=
        jsMapGet_filter_nodup id rec _ bot.contentIndex hndI hix
      rw [hcache, hcontains, hidx']
      cases hexp : (now - rec.timestamp > maxAge : Bool)
      · simp only [Bool.not_false, if_true]
        rw [hal id, hix]
      · simp only [Bool.not_true, if_false]
        rfl

theorem foldl_applyOp_WF (ops : List DiscoveryOp) (bot : ContentDiscoveryBot)
    (h : StoresWF bot) : StoresWF (ops.foldl applyOp bot) := by
  induction ops generalizing bot with
  | nil => exact h
  | cons op rest ih =>
    rw [List.foldl_cons]
    refine ih _ ?_
    cases op with
    | ingest now c => exact storesWF_indexContent bot now c h
    | cleanup now => exact storesWF_cleanup bot now h

/-! ## Search lemmas -/

/-- The relevance score as a pure value: the sum over whitespace-split
query words of per-word match counts. -/
def relevanceScore (queryLower text : String) : Nat :=
  ((jsSplitWs queryLower).map fun word => jsMatchCount word text).sum

theorem calculateRelevance_ok (query text : String)
    (h : (jsSplitWs query).all regexSyntaxOk = true) :
    calculateRelevance query text = Except.ok (relevanceScore query text) := by
  unfold calculateRelevance relevanceScore
  rw [if_pos h]

theorem searchContentLoop_ok (queryLower : String) (filters : SearchFilters)
    (l : List (String × ContentData))
    (h : (jsSplitWs queryLower).all regexSyntaxOk = true) :
    searchContentLoop queryLower filters l = Except.ok
      (((l.map Prod.snd).filter fun c =>
          passesFilters filters c && jsIncludes c.searchableText queryLower).map
        fun c => (c, relevanceScore queryLower c.searchableText)) := by
  induction l with
  | nil => rfl
  | cons e rest ih =>
    obtain ⟨k0, content⟩ := e
    by_cases hp : (passesFilters filters content
        && jsIncludes content.searchableText queryLower) = true
    · unfold searchContentLoop
      rw [if_pos hp, calculateRelevance_ok queryLower content.searchableText h, ih]
      simp [List.filter_cons, hp]
    · have hp' : (passesFilters filters content
          && jsIncludes content.searchableText queryLower) = false := by
        cases hb : passesFilters filters content
            && jsIncludes content.searchableText queryLower
        · rfl
        · exact absurd hb hp
      unfold searchContentLoop
      rw [if_neg hp, ih]
      simp [List.filter_cons, hp']

/-! ## Concrete inputs used by witnesses and counterexamples -/

/-- The spec scenario record:
`{text: "Dashboard system health metric", source: "dom"}`. -/
def sampleRecord : ContentData :=
  { id := "div__card_dashboard", type := "text", title := "Health",
    description := "", text := "Dashboard system health metric",
    metadata := [], relationships := [], timestamp := 0, source := "dom" }

/-- A record whose text contains an unbalanced regex metacharacter, so
its `searchableText` contains `(` as a substring. -/
def parenRecord : ContentData :=
  { id := "p1", type := "text", title := "P", description := "",
    text := "open ( paren", metadata := [], relationships := [],
    timestamp := 0, source := "dom" }

/-- A record carrying one outgoing relationship edge. -/
def linkedRecord : ContentData :=
  { id := "r1", type := "text", title := "R", description := "",
    text := "linked thing", metadata := [],
    relationships := [{ type := "link", target := "tgt" }],
    timestamp := 0, source := "dom" }

/-! ## The claims -/

/-- C1: for two ingestion events whose records share the same
`(text, source)` pair, the second `indexContent` call is dropped by the
duplicate check with no store mutation (the state is unchanged), so
ingesting the same record twice into an empty engine leaves
`totalContent` equal to 1. -/
theorem dedup_second_ingest_dropped (now1 now2 : Int) (c1 c2 : ContentData)
    (ht : c2.text = c1.text) (hs : c2.source = c1.source) :
    indexContent (indexContent emptyBot now1 c1) now2 c2
        = indexContent emptyBot now1 c1 ∧
      (indexContent (indexContent emptyBot now1 c1) now2 c2).indexingStatus.totalContent
        = 1 := by
  have hd1 : isDuplicate emptyBot c1 = false := rfl
  have hidx : (indexContent emptyBot now1 c1).contentIndex
      = [(c1.id, committedRecord emptyBot now1 c1)] := by
    rw [indexContent_contentIndex emptyBot now1 c1 hd1]
    rfl
  have hdup : isDuplicate (indexContent emptyBot now1 c1) c2 = true := by
    unfold isDuplicate
    rw [hidx]
    simp [committedRecord_text, committedRecord_source, ht, hs]
  refine ⟨indexContent_of_dup _ now2 c2 hdup, ?_⟩
  rw [indexContent_of_dup _ now2 c2 hdup,
    indexContent_totalContent emptyBot now1 c1 hd1]
  rfl

/-- Witness for C1 at the spec scenario record ingested twice. -/
theorem dedup_second_ingest_dropped_witness :
    indexContent (indexContent emptyBot 0 sampleRecord) 5 sampleRecord
        = indexContent emptyBot 0 sampleRecord ∧
      (indexContent (indexContent emptyBot 0 sampleRecord) 5 sampleRecord).indexingStatus.totalContent
        = 1 :=
  dedup_second_ingest_dropped 0 5 sampleRecord sampleRecord rfl rfl

/-- C2: after any sequence of ingestion and eviction operations from the
fresh engine, the search projection holds an entry for an id exactly
when the primary index holds a record for it; and eviction removes an
expired record from the primary index, the metadata store and the
search projection together. -/
theorem projection_totality_and_atomic_eviction :
    (∀ ops : List DiscoveryOp, CacheMatchesIndex (runOps ops)) ∧
    (∀ (bot : ContentDiscoveryBot) (now : Int) (id : String) (c : ContentData),
      (jsMapKeys bot.contentIndex).Nodup →
      jsMapGet id bot.contentIndex = some c →
      now - c.timestamp > maxAge →
      jsMapGet id (cleanupOldContent bot now).contentIndex = none ∧
      jsMapGet id (cleanupOldContent bot now).metadataStore = none ∧
      jsMapGet id (cleanupOldContent bot now).contentCache = none) := by
  constructor
  · intro ops
    exact (foldl_applyOp_WF ops emptyBot storesWF_empty).2.2
  · intro bot now id c hnd hget hexp
    have hdec : (now - c.timestamp > maxAge : Bool) = true := decide_eq_true hexp
    have hcontains : ((expiredIds bot now).contains id) = true := by
      unfold expiredIds
      rw [contains_filtered_keys_nodup id c _ bot.contentIndex hnd hget]
      exact hdec
    refine ⟨?_, ?_, ?_⟩
    · rw [cleanupOldContent_contentIndex,
        jsMapGet_filter_nodup id c _ bot.contentIndex hnd hget]
      simp only [hdec, Bool.not_true]
      rw [if_neg Bool.false_ne_true]
    · rw [cleanupOldContent_metadataStore,
        jsMapGet_filter_key (fun key => !((expiredIds bot now).contains key)) id
          bot.metadataStore]
      simp only [hcontains, Bool.not_true]
      rw [if_neg Bool.false_ne_true]
    · rw [cleanupOldContent_contentCache,
        jsMapGet_filter_key (fun key => !((expiredIds bot now).contains key)) id
          bot.contentCache]
      simp only [hcontains, Bool.not_true]
      rw [if_neg Bool.false_ne_true]

/-- Witness for C2: one ingest-then-evict run, and the eviction triple
at the concrete expired record. -/
theorem projection_totality_and_atomic_eviction_witness :
    CacheMatchesIndex
        (runOps [DiscoveryOp.ingest 0 sampleRecord, DiscoveryOp.cleanup 100000000]) ∧
      (jsMapGet sampleRecord.id
          (cleanupOldContent (indexContent emptyBot 0 sampleRecord) 100000000).contentIndex = none ∧
        jsMapGet sampleRecord.id
          (cleanupOldContent (indexContent emptyBot 0 sampleRecord) 100000000).metadataStore = none ∧
        jsMapGet sampleRecord.id
          (cleanupOldContent (indexContent emptyBot 0 sampleRecord) 100000000).contentCache = none) :=
  ⟨projection_totality_and_atomic_eviction.1 _,
    projection_totality_and_atomic_eviction.2
      (indexContent emptyBot 0 sampleRecord) 100000000 sampleRecord.id
      (committedRecord emptyBot 0 sampleRecord) (by decide) rfl (by decide)⟩

/-- C3: a record whose combined lowercased text-and-title contains both
the keyword "dashboard" and the keyword "system" is classified in
category "system": the system rule is evaluated last among the matching
rules of the ordered chain and overwrites the dashboard assignment. -/
theorem classify_system_overrides_dashboard (c : ContentData)
    (_hd : jsIncludes (jsToLower (c.text ++ " " ++ c.title)) "dashboard" = true)
    (hs : jsIncludes (jsToLower (c.text ++ " " ++ c.title)) "system" = true) :
    (classifyContent c).category = "system" := by
  unfold classifyContent
  simp only [hs, Bool.true_or, if_true]

/-- Witness for C3 at the spec scenario record, whose text contains both
keywords. -/
theorem classify_system_overrides_dashboard_witness :
    (classifyContent sampleRecord).category = "system" :=
  classify_system_overrides_dashboard sampleRecord (by decide) (by decide)

/-- C4 (amended): after every `updateIndexingStatus` call the
`totalContent` counter equals the live primary-index size; the original
claim extends this to snapshots taken after eviction and after the
full-discovery reset, which is refuted by
`totalContent_stale_after_eviction`. -/
theorem updateIndexingStatus_recomputes_totalContent
    (bot : ContentDiscoveryBot) (status : String) (now : Int) :
    (updateIndexingStatus bot status now).indexingStatus.totalContent =
      (updateIndexingStatus bot status now).contentIndex.length := rfl

/-- Counterexample to C4 as stated: evicting the only record does not
update the status, so a snapshot read after eviction sees
`totalContent = 1` while the primary index is empty. -/
theorem totalContent_stale_after_eviction :
    (cleanupOldContent (indexContent emptyBot 0 sampleRecord) 100000000).indexingStatus.totalContent
        = 1 ∧
      (cleanupOldContent (indexContent emptyBot 0 sampleRecord) 100000000).contentIndex.length
        = 0 :=
  ⟨by decide, by decide⟩

/-- C5: indexing a fresh record into the empty engine stores
`updateFrequency = "unknown"`, not an age bucket: `enrichMetadata` calls
`calculateUpdateFrequency` before `contentIndex.set`, so the lookup
misses for every new id. -/
theorem updateFrequency_unknown_for_fresh_record (now : Int) (c : ContentData) :
    (jsMapGet c.id (indexContent emptyBot now c).metadataStore).map
        (fun m => jsMapGet "updateFrequency" m)
      = some (some (MetaVal.str "unknown")) := by
  have hd : isDuplicate emptyBot c = false := rfl
  rw [indexContent_metadataStore emptyBot now c hd, jsMapGet_set_self,
    Option.map_some']
  rw [committedRecord_metadata]
  congr 1
  apply jsMapGet_jsMerge_right
  rfl

/-- C6 (amended): for every query whose whitespace-split words are free
of regex metacharacters, `searchContent` returns (never throws) exactly
the records that pass all supplied filters and whose `searchableText`
contains the lowercased query as a contiguous substring, each paired
with its relevance (the sum over query words of occurrence counts), in
descending relevance order; the unrestricted claim is refuted by
`searchContent_paren_error`. -/
theorem searchContent_spec (bot : ContentDiscoveryBot) (query : String)
    (filters : SearchFilters)
    (h : ∀ w ∈ jsSplitWs (jsToLower query), isRegexLiteral w = true) :
    ∃ results, searchContent bot query filters = Except.ok results ∧
      results.Perm
        (((bot.contentIndex.map Prod.snd).filter fun c =>
            passesFilters filters c
              && jsIncludes c.searchableText (jsToLower query)).map
          fun c => (c, relevanceScore (jsToLower query) c.searchableText)) ∧
      results.Sorted (fun a b => b.2 ≤ a.2) := by
  have hall : (jsSplitWs (jsToLower query)).all regexSyntaxOk = true := by
    rw [List.all_eq_true]
    exact fun w hw => regexSyntaxOk_of_isRegexLiteral w (h w hw)
  have htrans : ∀ a b c : ContentData × Nat,
      decide (b.2 ≤ a.2) = true → decide (c.2 ≤ b.2) = true →
        decide (c.2 ≤ a.2) = true := by
    intro a b c hab hbc
    rw [decide_eq_true_eq] at *
    omega
  have htot : ∀ a b : ContentData × Nat,
      (decide (b.2 ≤ a.2) || decide (a.2 ≤ b.2)) = true := by
    intro a b
    rcases Nat.le_total b.2 a.2 with hle | hle
    · rw [decide_eq_true hle, Bool.true_or]
    · rw [decide_eq_true hle, Bool.or_true]
  simp only [searchContent]
  rw [searchContentLoop_ok (jsToLower query) filters bot.contentIndex hall]
  refine ⟨_, rfl, List.mergeSort_perm _ _, ?_⟩
  exact List.Pairwise.imp (fun hab => of_decide_eq_true hab)
    (List.sorted_mergeSort htrans htot _)

/-- Witness for C6 at the one-word query "dashboard" on a one-record
engine. -/
theorem searchContent_spec_witness :
    ∃ results,
      searchContent (indexContent emptyBot 0 sampleRecord) "dashboard" noFilters
          = Except.ok results ∧
        results.Perm
          ((((indexContent emptyBot 0 sampleRecord).contentIndex.map Prod.snd).filter
              fun c => passesFilters noFilters c
                && jsIncludes c.searchableText (jsToLower "dashboard")).map
            fun c => (c, relevanceScore (jsToLower "dashboard") c.searchableText)) ∧
        results.Sorted (fun a b => b.2 ≤ a.2) :=
  searchContent_spec (indexContent emptyBot 0 sampleRecord) "dashboard" noFilters
    (by decide)

/-- Counterexample to C6 as stated: the query "(" occurs as a substring
of an indexed record's `searchableText`, yet `searchContent` propagates
the `RegExp` `SyntaxError` instead of returning that record. -/
theorem searchContent_paren_error :
    searchContent (indexContent emptyBot 0 parenRecord) "(" noFilters
      = Except.error "SyntaxError: Invalid regular expression" := rfl

/-- C7 (amended): with at least one record, the average divides the
total edge count by the number of records in the primary index (not the
number of graph keys); with zero records the unguarded division yields a
non-finite JS number (`NaN`/`Infinity`, modelled `none`), not 0 — the
zero case of the claim is refuted by
`averageRelationships_empty_not_zero`. -/
theorem averageRelationships_formula (bot : ContentDiscoveryBot)
    (h : bot.contentIndex.length ≠ 0) :
    (getRelationshipStats bot).averageRelationshipsPerContent =
      some (((((bot.relationshipGraph.map fun e => e.2.length).sum : Nat) : Rat)) /
        (bot.contentIndex.length : Rat)) := by
  simp only [getRelationshipStats]
  rw [if_neg h]

/-- Witness for C7 on a one-record engine. -/
theorem averageRelationships_formula_witness :
    (getRelationshipStats (indexContent emptyBot 0 sampleRecord)).averageRelationshipsPerContent =
      some ((((((indexContent emptyBot 0 sampleRecord).relationshipGraph.map
          fun e => e.2.length).sum : Nat) : Rat)) /
        ((indexContent emptyBot 0 sampleRecord).contentIndex.length : Rat)) :=
  averageRelationships_formula (indexContent emptyBot 0 sampleRecord) (by decide)

/-- Counterexample to the zero-record part of C7 as stated: on the empty
engine the average is the non-finite division result (`none`), not
`some 0`. -/
theorem averageRelationships_empty_not_zero :
    (getRelationshipStats emptyBot).averageRelationshipsPerContent = none ∧
      (getRelationshipStats emptyBot).averageRelationshipsPerContent ≠ some 0 := by
  refine ⟨rfl, ?_⟩
  intro hcontra
  have h0 : (getRelationshipStats emptyBot).averageRelationshipsPerContent = none := rfl
  rw [h0] at hcontra
  exact Option.noConfusion hcontra

/-- C8: there is a query (here "(") that occurs as a substring of an
indexed record's `searchableText` and for which `searchContent` throws
(the `RegExp` constructor rejects the pattern) instead of returning a
result sequence. -/
theorem searchContent_throws_on_metachar_query :
    ∃ (q : String) (bot : ContentDiscoveryBot),
      (∃ e ∈ bot.contentIndex, jsIncludes e.2.searchableText (jsToLower q) = true) ∧
      ∀ results, searchContent bot q noFilters ≠ Except.ok results := by
  refine ⟨"(", indexContent emptyBot 0 parenRecord, ⟨?_, ?_⟩⟩
  · have hidx : (indexContent emptyBot 0 parenRecord).contentIndex
        = [(parenRecord.id, committedRecord emptyBot 0 parenRecord)] := by
      rw [indexContent_contentIndex emptyBot 0 parenRecord rfl]
      rfl
    refine ⟨(parenRecord.id, committedRecord emptyBot 0 parenRecord), ?_, rfl⟩
    rw [hidx]
    exact List.mem_singleton_self _
  · intro results hcontra
    have herr : searchContent (indexContent emptyBot 0 parenRecord) "(" noFilters
        = Except.error "SyntaxError: Invalid regular expression" := rfl
    rw [herr] at hcontra
    exact Except.noConfusion hcontra

/-- C9: `cleanupOldContent` never touches the relationship graph (or the
status): only the primary index, metadata store and search cache are
filtered; consequently a state exists where the graph still keys an id
that eviction removed from the primary index. -/
theorem cleanup_frame_relationshipGraph :
    (∀ (bot : ContentDiscoveryBot) (now : Int),
        (cleanupOldContent bot now).relationshipGraph = bot.relationshipGraph ∧
        (cleanupOldContent bot now).indexingStatus = bot.indexingStatus) ∧
      (∃ (bot : ContentDiscoveryBot) (now : Int) (id : String),
        (jsMapGet id (cleanupOldContent bot now).relationshipGraph).isSome = true ∧
        jsMapGet id (cleanupOldContent bot now).contentIndex = none) := by
  refine ⟨fun bot now => ⟨rfl, rfl⟩, ?_⟩
  exact ⟨indexContent emptyBot 0 linkedRecord, 100000000, "r1", by decide, by decide⟩

/-- C10: for the empty query string, `searchContent` returns exactly the
records of the primary index that pass the supplied filters, because the
empty string is a contiguous substring of every `searchableText`. -/
theorem searchContent_empty_query_returns_all (bot : ContentDiscoveryBot)
    (filters : SearchFilters) :
    ∃ results, searchContent bot "" filters = Except.ok results ∧
      (results.map Prod.fst).Perm
        ((bot.contentIndex.map Prod.snd).filter fun c => passesFilters filters c) := by
  have hall : (jsSplitWs (jsToLower "")).all regexSyntaxOk = true := by decide
  have hfst : ∀ (l : List ContentData) (g : ContentData → Nat),
      ((l.map fun c => (c, g c)).map Prod.fst) = l := by
    intro l g
    induction l with
    | nil => rfl
    | cons a t ih => simp only [List.map_cons, ih]
  have hfilter :
      ((bot.contentIndex.map Prod.snd).filter fun c =>
          passesFilters filters c && jsIncludes c.searchableText (jsToLower "")) =
        ((bot.contentIndex.map Prod.snd).filter fun c => passesFilters filters c) := by
    apply List.filter_congr
    intro c _
    rw [show jsToLower "" = "" from rfl, jsIncludes_empty c.searchableText,
      Bool.and_true]
  simp only [searchContent]
  rw [searchContentLoop_ok (jsToLower "") filters bot.contentIndex hall]
  refine ⟨_, rfl, ?_⟩
  have hperm := (List.mergeSort_perm
    (((bot.contentIndex.map Prod.snd).filter fun c =>
        passesFilters filters c && jsIncludes c.searchableText (jsToLower "")).map
      fun c => (c, relevanceScore (jsToLower "") c.searchableText))
    (fun a b => decide (b.2 ≤ a.2))).map Prod.fst
  rw [hfst] at hperm
  rw [hfilter] at hperm
  rw [hfilter]
  exact hperm

end ContentDiscovery
